import Mathlib

/-!
Verification of the `stddata` indexed-lookup providers.

The repository implements, twice (packages `country` and `language`), one
generic pattern: load a flat record set, group the records into maps keyed
by several attributes, keep for each map a sorted list of its distinct
keys, and answer case-insensitive "starts with" queries (plus a reserved
full-dump query) against the sorted key list.

The shallow embedding below mirrors that source.  Go strings are modelled
as Lean `String` (a list of characters); Go's byte-wise string order
coincides with the character/code-point order on valid UTF-8 text, which
is what Lean's `String` linear order provides.  Go maps are modelled as
association lists with pairwise-distinct keys (`NodupKeys`); `nil` map
lookup yields the zero value, modelled by `Option.getD []`.  Fallible Go
functions return `Except`; a Go panic is modelled by `Option.none`.
-/

namespace Stddata

/-- Errors surfaced by the providers.  `serviceError` embeds
`stddata.ServiceError{msg, status}`; `plainError` embeds a bare
`errors.New(msg)` value that carries no status code. -/
inductive SError where
  | serviceError (msg : String) (status : Nat)
  | plainError (msg : String)
  deriving DecidableEq, Repr

/-- `http.StatusServiceUnavailable` -/
def statusServiceUnavailable : Nat := 503

/-- `http.StatusBadRequest` -/
def statusBadRequest : Nat := 400

/-- One character of Go's `strings.EqualFold` simple case-fold
(ASCII fold; the spec allows "ASCII/Unicode simple case-fold"). -/
def foldChar (c : Char) : Char := c.toLower

/-- Go `strings.EqualFold s t`: equality of the two strings after
character-wise case folding. -/
def eqFold (s t : String) : Bool :=
  s.data.map foldChar == t.data.map foldChar

/-- Go slice `s[0:n]` taken character-wise: the first `n` characters. -/
def strTake (s : String) (n : Nat) : String := ⟨s.data.take n⟩

/-- The body of the per-key test in `doSearch`:
`len(key) >= len(query) && strings.EqualFold(query, key[0:len(query)])`. -/
def matchesKey (query k : String) : Bool :=
  if query.length ≤ k.length then eqFold query (strTake k query.length)
  else false

/-- One named index: the key→group mapping (`countryMap`/`languageMap`)
together with its sorted distinct-key list (`countryKeys`/`languageKeys`). -/
structure Index (α : Type) where
  map : List (String × List α)
  keys : List String
  deriving DecidableEq

/-- A Go map has pairwise-distinct keys. -/
def NodupKeys {α : Type} (m : List (String × List α)) : Prop :=
  (m.map Prod.fst).Nodup

instance {α : Type} [DecidableEq α] (m : List (String × List α)) :
    Decidable (NodupKeys m) := by
  unfold NodupKeys; infer_instance

/-- Go map access `m[k]` (missing key yields the zero value `nil`). -/
def lookupGroup {α : Type} (m : List (String × List α)) (k : String) :
    List α :=
  (m.lookup k).getD []

/-- `storeData`: retain the mapping and its key list sorted with
`sort.Strings` (byte-wise ascending order). -/
def storeData {α : Type} (m : List (String × List α)) : Index α :=
  { map := m, keys := List.insertionSort (fun a b => a ≤ b) (m.map Prod.fst) }

/-- `doSearch`: walk the sorted key list; in dump mode (`query == "_dump"`)
every key's group is kept, otherwise exactly the keys passing `matchesKey`;
matching groups are emitted in key-list order. -/
def doSearch {α : Type} (ix : Index α) (query : String) : List (List α) :=
  (ix.keys.filter fun k => query == "_dump" || matchesKey query k).map
    fun k => lookupGroup ix.map k

/-- Go `m[k] = append(m[k], a)`: append `a` to the group of `k`, creating
the group when `k` is absent. -/
def mapAppend {α : Type} (m : List (String × List α)) (k : String) (a : α) :
    List (String × List α) :=
  if (m.lookup k).isSome then
    m.map fun e => if e.1 = k then (e.1, e.2 ++ [a]) else e
  else m ++ [(k, [a])]

/-- The load loop's map building: fold every record into the map keyed by
the attribute `f`. -/
def buildMap {α : Type} (f : α → String) (l : List α) :
    List (String × List α) :=
  l.foldl (fun m a => mapAppend m (f a) a) []

/-- The `csv.Reader` loop: read records until end of stream, aborting on
the first read error (a record with the wrong field count is a read
error). -/
def readRecords : List (Except String (List String)) →
    Except String (List (List String))
  | [] => .ok []
  | .error e :: _ => .error e
  | .ok r :: rest => (readRecords rest).map (r :: ·)

end Stddata

namespace country

open Stddata

/-- `Country` models one entity. -/
structure Country where
  EnglishName : String
  Alpha2Code : String
  Alpha3Code : String
  NumericCode : String
  deriving DecidableEq

/-- `CountryResult` wraps the groups returned from `Search`. -/
structure CountryResult where
  Countries : List (List Country)
  deriving DecidableEq

/-- `CountryProvider` state: readiness flag, size, and the named indexes. -/
structure CountryProvider where
  loaded : Bool
  size : Nat
  countryIndexes : List (String × Stddata.Index Country)
  deriving DecidableEq

/-- The message of the not-ready error in `CountryProvider.Search`. -/
def notReadyMsg : String :=
  "this should be a 503 Service Unavailable by the time it gets to the client"

/-- Positional field mapping of one 4-field record (the reader enforces
`FieldsPerRecord = 4`, so the defaults are never used on accepted input). -/
def rowToCountry (r : List String) : Country :=
  { EnglishName := r.getD 0 ""
    Alpha2Code := r.getD 1 ""
    Alpha3Code := r.getD 2 ""
    NumericCode := r.getD 3 "" }

/-- `CountryProvider.Load` over the record stream read from `countrydata`:
initialize the indexes, read all records (any read error aborts with a 503
`ServiceError`), build the four maps, store them with their sorted keys,
and return the size of the English-name map. -/
def Load (p : CountryProvider) (input : List (Except String (List String))) :
    CountryProvider × Except SError Nat :=
  match Stddata.readRecords input with
  | .error e =>
      ({ p with countryIndexes := [] },
       .error (.serviceError e statusServiceUnavailable))
  | .ok records =>
      let cs := records.map rowToCountry
      let englishNameMap := buildMap (fun c => c.EnglishName) cs
      let alpha2Map := buildMap (fun c => c.Alpha2Code) cs
      let alpha3Map := buildMap (fun c => c.Alpha3Code) cs
      let numericMap := buildMap (fun c => c.NumericCode) cs
      ({ loaded := true
         size := englishNameMap.length
         countryIndexes :=
           [("name", storeData englishNameMap),
            ("alpha2", storeData alpha2Map),
            ("alpha3", storeData alpha3Map),
            ("number", storeData numericMap)] },
       .ok englishNameMap.length)

/-- `CountryProvider.Search`: not loaded yields a bare error; an unknown
index name yields a 400 `ServiceError` naming the index; otherwise the
result of `doSearch`. -/
def Search (p : CountryProvider) (index query : String) :
    Except SError CountryResult :=
  if p.loaded ≠ true then
    .error (.plainError notReadyMsg)
  else
    match p.countryIndexes.lookup index with
    | none => .error (.serviceError ("No index on " ++ index) statusBadRequest)
    | some ci => .ok ⟨doSearch ci query⟩

end country

namespace language

open Stddata

/-- `Language` is the information on one language in the source data. -/
structure Language where
  Alpha3bibliographic : String
  Alpha3terminologic : String
  Alpha2 : String
  EnglishName : String
  FrenchName : String
  deriving DecidableEq

/-- `LanguageResult` wraps the groups returned from `Search`. -/
structure LanguageResult where
  Languages : List (List Language)
  deriving DecidableEq

/-- `LanguageProvider` state: readiness flag, size, and the named indexes. -/
structure LanguageProvider where
  loaded : Bool
  size : Nat
  languageIndexes : List (String × Stddata.Index Language)
  deriving DecidableEq

/-- Positional field mapping of one 5-field record. -/
def rowToLanguage (r : List String) : Language :=
  { Alpha3bibliographic := r.getD 0 ""
    Alpha3terminologic := r.getD 1 ""
    Alpha2 := r.getD 2 ""
    EnglishName := r.getD 3 ""
    FrenchName := r.getD 4 "" }

/-- `LanguageProvider.Load`: the `http.Get` fetch may fail (`.error` on the
outer `Except`), then the record loop runs as for countries; the two maps
are stored and the size of the alpha map is returned. -/
def Load (p : LanguageProvider)
    (fetch : Except String (List (Except String (List String)))) :
    LanguageProvider × Except SError Nat :=
  match fetch with
  | .error e =>
      ({ p with languageIndexes := [] },
       .error (.serviceError e statusServiceUnavailable))
  | .ok input =>
      match Stddata.readRecords input with
      | .error e =>
          ({ p with languageIndexes := [] },
           .error (.serviceError e statusServiceUnavailable))
      | .ok records =>
          let ls := records.map rowToLanguage
          let alphaMap := buildMap (fun l => l.Alpha3bibliographic) ls
          let englishNameMap := buildMap (fun l => l.EnglishName) ls
          ({ loaded := true
             size := alphaMap.length
             languageIndexes :=
               [("alpha", storeData alphaMap),
                ("name", storeData englishNameMap)] },
           .ok alphaMap.length)

/-- `LanguageProvider.Search`.  In the not-loaded branch the Go source
evaluates `err.Error()` on the named return `err`, which is still `nil`
there: a nil-pointer dereference, i.e. a runtime panic, modelled as
`none`.  The remaining branches return normally and are wrapped in
`some`. -/
def Search (p : LanguageProvider) (index query : String) :
    Option (Except SError LanguageResult) :=
  if p.loaded ≠ true then
    none
  else
    match p.languageIndexes.lookup index with
    | none =>
        some (.error (.serviceError ("No index on " ++ index) statusBadRequest))
    | some li => some (.ok ⟨doSearch li query⟩)

end language

/-! ### Helper lemmas about the generic core -/

namespace Stddata

variable {α : Type}

lemma lookup_isSome_iff (m : List (String × List α)) (k : String) :
    (m.lookup k).isSome = true ↔ k ∈ m.map Prod.fst := by
  induction m with
  | nil => simp [List.lookup]
  | cons e t ih =>
    rcases e with ⟨k1, g⟩
    by_cases h : k = k1
    · subst h; simp [List.lookup]
    · have hb : (k == k1) = false := beq_eq_false_iff_ne.mpr h
      simp [List.lookup, hb, ih, h]

lemma map_fst_update (m : List (String × List α)) (k : String) (a : α) :
    (m.map fun e => if e.1 = k then (e.1, e.2 ++ [a]) else e).map Prod.fst =
      m.map Prod.fst := by
  induction m with
  | nil => rfl
  | cons x t ih =>
    simp only [List.map_cons, ih]
    congr 1
    split <;> rfl

lemma mapAppend_keys (m : List (String × List α)) (k : String) (a : α) :
    (mapAppend m k a).map Prod.fst =
      if k ∈ m.map Prod.fst then m.map Prod.fst else m.map Prod.fst ++ [k] := by
  by_cases hk : k ∈ m.map Prod.fst
  · have hs : (m.lookup k).isSome = true := (lookup_isSome_iff m k).mpr hk
    simp only [mapAppend, hs, if_true, if_pos hk, map_fst_update]
  · have hs : (m.lookup k).isSome = false := by
      cases h : (m.lookup k).isSome
      · rfl
      · exact absurd ((lookup_isSome_iff m k).mp h) hk
    simp [mapAppend, hs, hk]

lemma mapAppend_nodupKeys (m : List (String × List α)) (k : String) (a : α)
    (h : NodupKeys m) : NodupKeys (mapAppend m k a) := by
  unfold NodupKeys at *
  rw [mapAppend_keys]
  by_cases hk : k ∈ m.map Prod.fst
  · rw [if_pos hk]; exact h
  · rw [if_neg hk, List.nodup_append]
    exact ⟨h, List.nodup_singleton _, by simp [hk]⟩

lemma mapAppend_mem (m : List (String × List α)) (k : String) (a : α)
    (k' : String) :
    k' ∈ (mapAppend m k a).map Prod.fst ↔ k' ∈ m.map Prod.fst ∨ k' = k := by
  rw [mapAppend_keys]
  by_cases hk : k ∈ m.map Prod.fst
  · rw [if_pos hk]
    constructor
    · exact Or.inl
    · rintro (h | h)
      · exact h
      · exact h ▸ hk
  · rw [if_neg hk]; simp

lemma buildMap_aux (f : α → String) (l : List α) :
    ∀ m : List (String × List α), NodupKeys m →
      NodupKeys (l.foldl (fun acc a => mapAppend acc (f a) a) m) ∧
      ∀ k, k ∈ (l.foldl (fun acc a => mapAppend acc (f a) a) m).map Prod.fst ↔
        (k ∈ m.map Prod.fst ∨ k ∈ l.map f) := by
  induction l with
  | nil => intro m hm; simpa using hm
  | cons x xs ih =>
    intro m hm
    rw [List.foldl_cons]
    obtain ⟨h1, h2⟩ :=
      ih (mapAppend m (f x) x) (mapAppend_nodupKeys m (f x) x hm)
    refine ⟨h1, fun k => ?_⟩
    rw [h2 k, mapAppend_mem]
    simp [or_assoc]

lemma buildMap_nodupKeys (f : α → String) (l : List α) :
    NodupKeys (buildMap f l) :=
  (buildMap_aux f l [] (by simp [NodupKeys])).1

lemma buildMap_mem (f : α → String) (l : List α) (k : String) :
    k ∈ (buildMap f l).map Prod.fst ↔ k ∈ l.map f := by
  have h := (buildMap_aux f l [] (by simp [NodupKeys])).2 k
  simpa [buildMap] using h

lemma buildMap_length (f : α → String) (l : List α) :
    (buildMap f l).length = (l.map f).toFinset.card := by
  have hn : ((buildMap f l).map Prod.fst).Nodup := buildMap_nodupKeys f l
  have hm : ((buildMap f l).map Prod.fst).toFinset = (l.map f).toFinset := by
    ext k
    rw [List.mem_toFinset, List.mem_toFinset]
    exact buildMap_mem f l k
  calc (buildMap f l).length
      = ((buildMap f l).map Prod.fst).length := by rw [List.length_map]
    _ = ((buildMap f l).map Prod.fst).toFinset.card :=
        (List.toFinset_card_of_nodup hn).symm
    _ = (l.map f).toFinset.card := by rw [hm]

lemma storeData_map (m : List (String × List α)) : (storeData m).map = m := rfl

lemma storeData_keys_perm (m : List (String × List α)) :
    (storeData m).keys.Perm (m.map Prod.fst) :=
  List.perm_insertionSort _ _

lemma storeData_keys_sorted (m : List (String × List α)) :
    (storeData m).keys.Sorted (fun a b => a ≤ b) :=
  List.sorted_insertionSort _ _

lemma storeData_keys_nodup (m : List (String × List α)) (h : NodupKeys m) :
    (storeData m).keys.Nodup :=
  ((storeData_keys_perm m).nodup_iff).mpr h

lemma storeData_keys_sorted_lt (m : List (String × List α)) (h : NodupKeys m) :
    (storeData m).keys.Sorted (fun a b => a < b) :=
  List.Sorted.lt_of_le (storeData_keys_sorted m) (storeData_keys_nodup m h)

lemma matchesKey_iff (query k : String) :
    matchesKey query k = true ↔
      query.length ≤ k.length ∧ eqFold query (strTake k query.length) = true := by
  unfold matchesKey
  by_cases h : query.length ≤ k.length
  · simp [h]
  · simp [h]

lemma doSearch_eq_filter (ix : Index α) (query : String)
    (hq : query ≠ "_dump") :
    doSearch ix query =
      (ix.keys.filter (matchesKey query)).map (lookupGroup ix.map) := by
  unfold doSearch
  have hb : (query == "_dump") = false := beq_eq_false_iff_ne.mpr hq
  have hf : (ix.keys.filter fun k => query == "_dump" || matchesKey query k) =
      ix.keys.filter (matchesKey query) :=
    List.filter_congr (fun k _ => by rw [hb, Bool.false_or])
  rw [hf]

lemma doSearch_dump_eq (ix : Index α) :
    doSearch ix "_dump" = ix.keys.map (lookupGroup ix.map) := by
  unfold doSearch
  have hf : (ix.keys.filter fun k => "_dump" == "_dump" || matchesKey "_dump" k) =
      ix.keys.filter (fun _ => true) :=
    List.filter_congr (fun k _ => by simp)
  rw [hf, List.filter_true]

lemma matchesKey_empty (k : String) : matchesKey "" k = true := by
  apply (matchesKey_iff "" k).mpr
  refine ⟨?_, ?_⟩
  · show (0 : Nat) ≤ k.length
    exact Nat.zero_le _
  · show eqFold "" (strTake k 0) = true
    simp [eqFold, strTake]

lemma doSearch_empty_eq_dump (ix : Index α) :
    doSearch ix "" = doSearch ix "_dump" := by
  rw [doSearch_dump_eq, doSearch_eq_filter ix "" (by decide)]
  have hf : ix.keys.filter (matchesKey "") = ix.keys.filter (fun _ => true) :=
    List.filter_congr (fun k _ => matchesKey_empty k)
  rw [hf, List.filter_true]

lemma lookup_eq_of_perm (m₁ m₂ : List (String × List α))
    (h : m₁.Perm m₂) (nd : NodupKeys m₁) (k : String) :
    m₁.lookup k = m₂.lookup k := by
  induction h with
  | nil => rfl
  | cons x h ih =>
    rcases x with ⟨k1, g⟩
    by_cases hk : k = k1
    · subst hk; simp [List.lookup]
    · have hb : (k == k1) = false := beq_eq_false_iff_ne.mpr hk
      have nd' : NodupKeys _ := (List.nodup_cons.mp nd).2
      simp [List.lookup, hb, ih nd']
  | swap x y l =>
    rcases x with ⟨kx, gx⟩
    rcases y with ⟨ky, gy⟩
    have hne : ky ≠ kx := by
      have := (List.nodup_cons.mp nd).1
      intro h
      exact this (by simp [h])
    by_cases h1 : k = ky
    · subst h1
      have hb : (k == kx) = false := beq_eq_false_iff_ne.mpr hne
      simp [List.lookup, hb]
    · by_cases h2 : k = kx
      · subst h2
        have hb : (k == ky) = false := beq_eq_false_iff_ne.mpr h1
        simp [List.lookup, hb]
      · have hb1 : (k == ky) = false := beq_eq_false_iff_ne.mpr h1
        have hb2 : (k == kx) = false := beq_eq_false_iff_ne.mpr h2
        simp [List.lookup, hb1, hb2]
  | trans h1 h2 ih1 ih2 =>
    have ndmid : NodupKeys _ := (h1.map Prod.fst).nodup_iff.mp nd
    rw [ih1 nd, ih2 ndmid]

end Stddata

/-! ### Claim theorems -/

open Stddata

/-- C1: for every loaded provider, configured index and query other than
"_dump", `Search` returns exactly the groups of the keys `k` of the index
with `length k ≥ length query` whose first `length query` characters
case-insensitively equal the query, each such key's group exactly once
(the key list `ks` is strictly sorted, hence duplicate-free), in
byte-wise ascending key order. -/
theorem country_search_matching_groups (p : country.CountryProvider)
    (idx query : String) (m : List (String × List country.Country))
    (hl : p.loaded = true)
    (hix : p.countryIndexes.lookup idx = some (storeData m))
    (hnd : NodupKeys m) (hq : query ≠ "_dump") :
    ∃ ks : List String,
      country.Search p idx query = .ok ⟨ks.map (lookupGroup m)⟩ ∧
      ks.Sorted (fun a b => a < b) ∧
      ∀ k, k ∈ ks ↔ (k ∈ m.map Prod.fst ∧ query.length ≤ k.length ∧
        eqFold query (strTake k query.length) = true) := by
  refine ⟨(storeData m).keys.filter (matchesKey query), ?_, ?_, ?_⟩
  · simp only [country.Search, hl, ne_eq, not_true_eq_false, if_false, hix]
    rw [doSearch_eq_filter _ query hq, storeData_map]
  · exact List.Sorted.filter _ (storeData_keys_sorted_lt m hnd)
  · intro k
    rw [List.mem_filter, (storeData_keys_perm m).mem_iff, matchesKey_iff]

/-- Witness for C1: a two-key index, query "A" case-insensitively matches
the key "a" and not "B". -/
theorem country_search_matching_groups_witness :
    NodupKeys [("B", ([] : List country.Country)), ("a", [])] ∧
    ("A" : String) ≠ "_dump" ∧
    (∃ ks : List String,
      country.Search ⟨true, 2, [("name",
          storeData [("B", ([] : List country.Country)), ("a", [])])]⟩
          "name" "A" =
        .ok ⟨ks.map (lookupGroup [("B", ([] : List country.Country)), ("a", [])])⟩ ∧
      ks.Sorted (fun a b => a < b) ∧
      ∀ k, k ∈ ks ↔
        (k ∈ [("B", ([] : List country.Country)), ("a", [])].map Prod.fst ∧
          ("A" : String).length ≤ k.length ∧
          eqFold "A" (strTake k ("A" : String).length) = true)) :=
  ⟨by decide, by decide,
    country_search_matching_groups _ "name" "A" _ rfl rfl (by decide) (by decide)⟩

/-- C2: for every loaded provider and configured index, the reserved query
"_dump" returns every key's group exactly once, in byte-wise ascending key
order. -/
theorem country_search_dump_exports_index (p : country.CountryProvider)
    (idx : String) (m : List (String × List country.Country))
    (hl : p.loaded = true)
    (hix : p.countryIndexes.lookup idx = some (storeData m))
    (hnd : NodupKeys m) :
    ∃ ks : List String,
      country.Search p idx "_dump" = .ok ⟨ks.map (lookupGroup m)⟩ ∧
      ks.Sorted (fun a b => a < b) ∧
      ∀ k, k ∈ ks ↔ k ∈ m.map Prod.fst := by
  refine ⟨(storeData m).keys, ?_, storeData_keys_sorted_lt m hnd,
    fun k => (storeData_keys_perm m).mem_iff⟩
  simp only [country.Search, hl, ne_eq, not_true_eq_false, if_false, hix]
  rw [doSearch_dump_eq, storeData_map]

/-- Witness for C2 on a two-key index. -/
theorem country_search_dump_exports_index_witness :
    NodupKeys [("b", ([] : List country.Country)), ("a", [])] ∧
    (∃ ks : List String,
      country.Search ⟨true, 2, [("name",
          storeData [("b", ([] : List country.Country)), ("a", [])])]⟩
          "name" "_dump" =
        .ok ⟨ks.map (lookupGroup [("b", ([] : List country.Country)), ("a", [])])⟩ ∧
      ks.Sorted (fun a b => a < b) ∧
      ∀ k, k ∈ ks ↔
        k ∈ [("b", ([] : List country.Country)), ("a", [])].map Prod.fst) :=
  ⟨by decide,
    country_search_dump_exports_index _ "name" _ rfl rfl (by decide)⟩

/-- C5: on a loaded provider, an index name that is not configured yields
a 400 "bad request" `ServiceError` whose message names the index, and no
result. -/
theorem country_search_unknown_index (p : country.CountryProvider)
    (idx query : String) (hl : p.loaded = true)
    (hix : p.countryIndexes.lookup idx = none) :
    country.Search p idx query =
      .error (.serviceError ("No index on " ++ idx) statusBadRequest) := by
  simp only [country.Search, hl, ne_eq, not_true_eq_false, if_false, hix]

/-- Witness for C5 on a loaded provider without a "nonexistent" index. -/
theorem country_search_unknown_index_witness :
    (country.Search
        ⟨true, 0, [("name", storeData ([] : List (String × List country.Country)))]⟩
        "nonexistent" "x" =
      .error (.serviceError ("No index on " ++ "nonexistent") statusBadRequest)) :=
  country_search_unknown_index _ "nonexistent" "x" rfl rfl

/-- C8: on a loaded provider the empty query matches every key, so the
result coincides, groups and order alike, with the "_dump" result. -/
theorem country_search_empty_query_eq_dump (p : country.CountryProvider)
    (idx : String) (hl : p.loaded = true) :
    country.Search p idx "" = country.Search p idx "_dump" := by
  cases h : p.countryIndexes.lookup idx with
  | none => simp only [country.Search, hl, ne_eq, not_true_eq_false, if_false, h]
  | some ci =>
    simp only [country.Search, hl, ne_eq, not_true_eq_false, if_false, h]
    rw [doSearch_empty_eq_dump]

/-- Witness for C8. -/
theorem country_search_empty_query_eq_dump_witness :
    (⟨true, 2, [("name", storeData [("b", ([] : List country.Country)), ("a", [])])]⟩
        : country.CountryProvider).loaded = true ∧
    country.Search
        ⟨true, 2, [("name", storeData [("b", ([] : List country.Country)), ("a", [])])]⟩
        "name" "" =
      country.Search
        ⟨true, 2, [("name", storeData [("b", ([] : List country.Country)), ("a", [])])]⟩
        "name" "_dump" :=
  ⟨rfl, country_search_empty_query_eq_dump _ "name" rfl⟩

/-- C9: the search result is a deterministic function of the loaded state.
In the embedding `Search` is a pure function, so two calls with equal
arguments are definitionally equal; the only nondeterminism in the source
is Go's map iteration order in `storeData`, and this theorem shows the
result of `doSearch` over `storeData` is invariant under any re-ordering
(permutation) of the mapping's entries. -/
theorem doSearch_deterministic {α : Type}
    (m₁ m₂ : List (String × List α)) (h : m₁.Perm m₂) (hnd : NodupKeys m₁)
    (q : String) :
    doSearch (storeData m₁) q = doSearch (storeData m₂) q := by
  have hkeys : (storeData m₁).keys = (storeData m₂).keys :=
    List.eq_of_perm_of_sorted
      ((storeData_keys_perm m₁).trans
        ((h.map Prod.fst).trans (storeData_keys_perm m₂).symm))
      (storeData_keys_sorted m₁) (storeData_keys_sorted m₂)
  have hlook : lookupGroup m₁ = lookupGroup m₂ := by
    funext k
    unfold lookupGroup
    rw [lookup_eq_of_perm m₁ m₂ h hnd k]
  unfold doSearch
  rw [storeData_map, storeData_map, hkeys, hlook]

/-- A stream with no read errors is read whole. -/
lemma readRecords_ok (rows : List (List String)) :
    readRecords (rows.map Except.ok) = .ok rows := by
  induction rows with
  | nil => rfl
  | cons r rest ih => simp [readRecords, ih, Except.map]

/-- Sorting the key list does not change how many keys there are. -/
lemma storeData_keys_length {α : Type} (m : List (String × List α)) :
    (storeData m).keys.length = m.length := by
  rw [(storeData_keys_perm m).length_eq, List.length_map]

/-- C3 (code bug): `LanguageProvider.Search` invoked before a successful
`Load` evaluates `err.Error()` on the still-nil named return `err` — a
nil-pointer dereference, i.e. a runtime panic (`none` in the embedding) —
instead of returning an explicit error value. -/
theorem language_search_not_loaded_panics (p : language.LanguageProvider)
    (idx query : String) (h : p.loaded = false) :
    language.Search p idx query = none := by
  simp [language.Search, h]

/-- Witness for C3 at a concrete not-loaded provider. -/
theorem language_search_not_loaded_panics_witness :
    (⟨false, 0, []⟩ : language.LanguageProvider).loaded = false ∧
    language.Search ⟨false, 0, []⟩ "alpha" "eng" = none :=
  ⟨rfl, language_search_not_loaded_panics _ "alpha" "eng" rfl⟩

/-- C4 (code bug): on a provider that has not loaded, the country `Search`
does return an error and no result — but a bare `errors.New` value, not a
`ServiceError` carrying the 503 status — while the language `Search`
panics (nil `err.Error()`) instead of returning any error. -/
theorem search_not_ready_divergence :
    country.Search ⟨false, 0, []⟩ "name" "x" =
      .error (.plainError country.notReadyMsg) ∧
    language.Search ⟨false, 0, []⟩ "alpha" "x" = none := by
  constructor <;> rfl

/-- C6: if the record stream fails, `Load` returns a 503 `ServiceError`,
the provider stays not ready, its index table is left empty, and every
subsequent `Search` fails with the not-ready error: no partial state is
exposed. -/
theorem country_load_failure_not_ready (p : country.CountryProvider)
    (input : List (Except String (List String))) (e : String)
    (hl : p.loaded = false) (hr : readRecords input = .error e) :
    (country.Load p input).2 =
      .error (.serviceError e statusServiceUnavailable) ∧
    (country.Load p input).1.loaded = false ∧
    (country.Load p input).1.countryIndexes = [] ∧
    ∀ idx query, country.Search (country.Load p input).1 idx query =
      .error (.plainError country.notReadyMsg) := by
  have h1 : (country.Load p input).1 = { p with countryIndexes := [] } := by
    simp only [country.Load, hr]
  refine ⟨?_, ?_, ?_, ?_⟩
  · simp only [country.Load, hr]
  · rw [h1]; exact hl
  · rw [h1]
  · intro idx query
    rw [h1]
    simp [country.Search, hl]

/-- Witness for C6: a stream whose first read fails. -/
theorem country_load_failure_not_ready_witness :
    (⟨false, 0, []⟩ : country.CountryProvider).loaded = false ∧
    readRecords [Except.error "io failure"] = .error "io failure" ∧
    ((country.Load ⟨false, 0, []⟩ [Except.error "io failure"]).2 =
      .error (.serviceError "io failure" statusServiceUnavailable) ∧
    (country.Load ⟨false, 0, []⟩ [Except.error "io failure"]).1.loaded = false ∧
    (country.Load ⟨false, 0, []⟩ [Except.error "io failure"]).1.countryIndexes = [] ∧
    ∀ idx query,
      country.Search (country.Load ⟨false, 0, []⟩ [Except.error "io failure"]).1
          idx query =
        .error (.plainError country.notReadyMsg)) :=
  ⟨rfl, rfl, country_load_failure_not_ready _ _ "io failure" rfl rfl⟩

/-- C7: the key sequence stored by `storeData` is a permutation of the
mapping's keys (each distinct key exactly once, no foreign key), is
duplicate-free, and is sorted in ordinal ascending string order. -/
theorem storeData_sorted_distinct_keys {α : Type}
    (m : List (String × List α)) (h : NodupKeys m) :
    (storeData m).keys.Perm (m.map Prod.fst) ∧
    (storeData m).keys.Nodup ∧
    (storeData m).keys.Sorted (fun a b => a ≤ b) :=
  ⟨storeData_keys_perm m, storeData_keys_nodup m h, storeData_keys_sorted m⟩

/-- Witness for C7 on a concrete two-entry mapping. -/
theorem storeData_sorted_distinct_keys_witness :
    NodupKeys ([("b", [0]), ("a", [1])] : List (String × List Nat)) ∧
    ((storeData ([("b", [0]), ("a", [1])] : List (String × List Nat))).keys.Perm
        (([("b", [0]), ("a", [1])] : List (String × List Nat)).map Prod.fst) ∧
      (storeData ([("b", [0]), ("a", [1])] : List (String × List Nat))).keys.Nodup ∧
      (storeData ([("b", [0]), ("a", [1])] : List (String × List Nat))).keys.Sorted
        (fun a b => a ≤ b)) :=
  ⟨by decide, storeData_sorted_distinct_keys _ (by decide)⟩

/-- C10: on a successfully read stream, `Load` returns the number of
distinct keys of the primary index — the English-name map for countries,
the alpha-3-bibliographic map for languages — which is also the length of
that index's stored key list, and not in general the number of records
read. -/
theorem load_count_distinct_primary_keys (pc : country.CountryProvider)
    (pl : language.LanguageProvider) (rows lrows : List (List String)) :
    (country.Load pc (rows.map Except.ok)).2 =
      .ok (((rows.map country.rowToCountry).map
        (fun c => c.EnglishName)).toFinset.card) ∧
    ((country.Load pc (rows.map Except.ok)).1.countryIndexes.lookup "name").map
        (fun ix => ix.keys.length) =
      some (((rows.map country.rowToCountry).map
        (fun c => c.EnglishName)).toFinset.card) ∧
    (language.Load pl (.ok (lrows.map Except.ok))).2 =
      .ok (((lrows.map language.rowToLanguage).map
        (fun l => l.Alpha3bibliographic)).toFinset.card) ∧
    ((language.Load pl (.ok (lrows.map Except.ok))).1.languageIndexes.lookup
        "alpha").map (fun ix => ix.keys.length) =
      some (((lrows.map language.rowToLanguage).map
        (fun l => l.Alpha3bibliographic)).toFinset.card) := by
  refine ⟨?_, ?_, ?_, ?_⟩
  · simp only [country.Load, readRecords_ok]
    rw [buildMap_length]
  · simp only [country.Load, readRecords_ok, List.lookup]
    simp [storeData_keys_length, buildMap_length]
  · simp only [language.Load, readRecords_ok]
    rw [buildMap_length]
  · simp only [language.Load, readRecords_ok, List.lookup]
    simp [storeData_keys_length, buildMap_length]

/-- Witness for C9: the two enumeration orders of the same two-entry map
give the same search result. -/
theorem doSearch_deterministic_witness :
    ([("b", [0]), ("a", [1])] : List (String × List Nat)).Perm
      [("a", [1]), ("b", [0])] ∧
    NodupKeys ([("b", [0]), ("a", [1])] : List (String × List Nat)) ∧
    doSearch (storeData ([("b", [0]), ("a", [1])] : List (String × List Nat))) "a" =
      doSearch (storeData ([("a", [1]), ("b", [0])] : List (String × List Nat))) "a" :=
  ⟨List.Perm.swap _ _ _, by decide,
    doSearch_deterministic _ _ (List.Perm.swap _ _ _) (by decide) "a"⟩
